import Mathlib

/-!
Verification development for the gift-card HTTP service (`src/server.js`).

The server keeps an in-memory map from gift-card codes to card records
(`giftCards`), a singleton global price (`currentPrice`), and mirrors both to
two JSON files after every mutation (`saveData`) / at startup (`loadData`).
We shallow-embed the data model and the five stateful request handlers:
`POST /api/validate`, `POST /api/admin/price`, `POST /api/admin/cards/status`,
`POST /api/admin/cards/price`, and `POST /api/admin/stats`.

JavaScript request-body values are modelled by `JVal` (null / undefined /
boolean / number / string); numbers are modelled as rationals.  The card map
is an insertion-ordered association list, mirroring a JS object.  Disk
contents are modelled as structured JSON trees (`Json`); `saveData` encodes
the in-memory state into them, and filesystem failure is modelled by the
`fsOk` flag (the real `saveData` catches and logs write errors itself, so a
failed flush leaves the files as they were and never raises).
-/

namespace GiftCardServer

/-- A JavaScript value as it can arrive in a JSON request body (no objects or
arrays are needed by the handlers we model; numbers are rationals). -/
inductive JVal where
  | null
  | undefined
  | bool (b : Bool)
  | num (q : ℚ)
  | str (s : String)
deriving DecidableEq, Repr

/-- JavaScript truthiness of a `JVal` (`!v` in the source is `!jsTruthy v`). -/
def jsTruthy : JVal → Bool
  | .null => false
  | .undefined => false
  | .bool b => b
  | .num q => q != 0
  | .str s => s != ""

/-- `typeof v === 'number'`. -/
def JVal.isNumber : JVal → Bool
  | .num _ => true
  | _ => false

/-- `typeof v === 'string'`. -/
def JVal.isString : JVal → Bool
  | .str _ => true
  | _ => false

/-- The numeric payload of a `JVal` (only meaningful after `isNumber`). -/
def JVal.numVal : JVal → ℚ
  | .num q => q
  | _ => 0

/-- The string payload of a `JVal` (only meaningful after `isString`). -/
def JVal.strVal : JVal → String
  | .str s => s
  | _ => ""

/-- Character class `[A-Z0-9]` of the code regex. -/
def isCodeChar (ch : Char) : Bool :=
  ('A' ≤ ch && ch ≤ 'Z') || ('0' ≤ ch && ch ≤ '9')

/-- `/^[A-Z0-9]{1,25}$/.test(c)`: between 1 and 25 characters, all uppercase
alphanumeric. -/
def matchesCodePattern (c : String) : Bool :=
  1 ≤ c.length && c.length ≤ 25 && c.data.all isCodeChar

/-- The full guard of `POST /api/validate` (server.js line 149):
`!(!code || typeof code !== 'string' || code.length > 25 || !pattern.test(code))`. -/
def isValidCodeInput (v : JVal) : Bool :=
  jsTruthy v && v.isString && v.strVal.length ≤ 25 && matchesCodePattern v.strVal

/-- A card-level price override `{ amount, currency }`. -/
structure CardPrice where
  amount : ℚ
  currency : String
deriving DecidableEq, Repr

/-- A gift-card record as stored in `giftCards`.  `updatedAt` and `price` are
absent (undefined) until first assigned. -/
structure GiftCard where
  code : String
  status : String
  createdAt : String
  updatedAt : Option String := none
  price : Option CardPrice := none
deriving DecidableEq, Repr

/-- The singleton global price record `currentPrice`. -/
structure PriceRecord where
  amount : ℚ
  currency : String
  updatedAt : String
deriving DecidableEq, Repr

/-- The in-memory card map: a JS object keyed by code, modelled as an
insertion-ordered association list. -/
abbrev CardMap := List (String × GiftCard)

/-- A JSON document, as produced by `JSON.stringify` / consumed by
`JSON.parse` (the content of `cards.json` and `price.json`). -/
inductive Json where
  | null
  | bool (b : Bool)
  | num (q : ℚ)
  | str (s : String)
  | arr (elems : List Json)
  | obj (fields : List (String × Json))

/-- Property access `j[k]` on a parsed JSON value. -/
def Json.getField : Json → String → Option Json
  | .obj fs, k => fs.lookup k
  | _, _ => none

/-- Read a JSON value as a string. -/
def Json.asStr : Json → Option String
  | .str s => some s
  | _ => none

/-- Read a JSON value as a number. -/
def Json.asNum : Json → Option ℚ
  | .num q => some q
  | _ => none

/-- `JSON.stringify` of a card price override. -/
def encodeCardPrice (p : CardPrice) : Json :=
  .obj [("amount", .num p.amount), ("currency", .str p.currency)]

/-- `JSON.stringify` of one gift-card record (fields absent in the record are
omitted, as `JSON.stringify` drops `undefined` properties). -/
def encodeCard (c : GiftCard) : Json :=
  .obj ([("code", .str c.code), ("status", .str c.status),
         ("createdAt", .str c.createdAt)]
    ++ (match c.updatedAt with
        | some t => [("updatedAt", .str t)]
        | none => [])
    ++ (match c.price with
        | some p => [("price", encodeCardPrice p)]
        | none => []))

/-- `JSON.stringify(giftCards)`: the whole card map as one JSON object. -/
def encodeCards (m : CardMap) : Json :=
  .obj (m.map (fun kv => (kv.1, encodeCard kv.2)))

/-- `JSON.stringify(currentPrice)`: `null` when no price was ever set. -/
def encodePrice : Option PriceRecord → Json
  | none => .null
  | some p =>
    .obj [("amount", .num p.amount), ("currency", .str p.currency),
          ("updatedAt", .str p.updatedAt)]

/-- View a parsed JSON value as a card price override. -/
def decodeCardPrice (j : Json) : Option CardPrice := do
  let amount ← (← j.getField "amount").asNum
  let currency ← (← j.getField "currency").asStr
  some { amount := amount, currency := currency }

/-- View a parsed JSON value as a gift-card record (`loadData` assigns the
parse result directly; this is the JS-object-as-record reading of it). -/
def decodeCard (j : Json) : Option GiftCard := do
  let code ← (← j.getField "code").asStr
  let status ← (← j.getField "status").asStr
  let createdAt ← (← j.getField "createdAt").asStr
  let updatedAt ←
    match j.getField "updatedAt" with
    | none => some none
    | some u => u.asStr.map some
  let price ←
    match j.getField "price" with
    | none => some none
    | some pj => (decodeCardPrice pj).map some
  some { code := code, status := status, createdAt := createdAt,
         updatedAt := updatedAt, price := price }

/-- View a parsed `cards.json` document as a card map. -/
def decodeCards (j : Json) : Option CardMap :=
  match j with
  | .obj fs => fs.mapM (fun kv => (decodeCard kv.2).map (fun c => (kv.1, c)))
  | _ => none

/-- View a parsed `price.json` document as the global price (`null` means no
price set). -/
def decodePrice (j : Json) : Option (Option PriceRecord) :=
  match j with
  | .null => some none
  | j => (do
      let amount ← (← j.getField "amount").asNum
      let currency ← (← j.getField "currency").asStr
      let updatedAt ← (← j.getField "updatedAt").asStr
      some (PriceRecord.mk amount currency updatedAt))
    |>.map some

/-- `loadData`, cards half: a file that does not read back as a card map is
treated as "no data yet" (empty map), mirroring the catch in lines 44-49. -/
def loadCards (j : Json) : CardMap :=
  (decodeCards j).getD []

/-- `loadData`, price half: a file that does not read back as a price record
is treated as "no price yet" (`null`), mirroring the catch in lines 56-61. -/
def loadPrice (j : Json) : Option PriceRecord :=
  (decodePrice j).getD none

/-- The whole server state: the two in-memory globals and the two data files. -/
structure ServerState where
  giftCards : CardMap
  currentPrice : Option PriceRecord
  diskCards : Json
  diskPrice : Json

/-- `saveData()`: overwrite both files with the serialized in-memory state.
`fsOk = false` models a filesystem failure: the real `saveData` catches and
logs the error itself, so the files are left as they were and no exception
propagates to the caller. -/
def saveData (fsOk : Bool) (s : ServerState) : ServerState :=
  if fsOk then
    { s with diskCards := encodeCards s.giftCards,
             diskPrice := encodePrice s.currentPrice }
  else s

/-- State at first startup (no data files yet, lines 16-17 and 37-65). -/
def initState : ServerState :=
  { giftCards := [], currentPrice := none,
    diskCards := encodeCards [], diskPrice := encodePrice none }

/-- Response of `POST /api/validate`. -/
inductive ValidateResp where
  | invalidFormat
  | ok (card : GiftCard) (globalPrice : Option PriceRecord)
deriving DecidableEq, Repr

/-- HTTP status code of a validate response. -/
def ValidateResp.httpStatus : ValidateResp → Nat
  | .invalidFormat => 400
  | .ok _ _ => 200

/-- `POST /api/validate` handler (lines 145-180). -/
def validateHandler (fsOk : Bool) (now : String) (codeVal : JVal)
    (s : ServerState) : ValidateResp × ServerState :=
  if !isValidCodeInput codeVal then (.invalidFormat, s)
  else
    let code := codeVal.strVal
    match s.giftCards.lookup code with
    | some card => (.ok card s.currentPrice, s)
    | none =>
      let card : GiftCard :=
        { code := code, status := "pending", createdAt := now }
      let s1 := saveData fsOk { s with giftCards := s.giftCards ++ [(code, card)] }
      (.ok card s1.currentPrice, s1)

/-- Response of `POST /api/admin/price`. -/
inductive PriceResp where
  | invalidAmount
  | invalidCurrency
  | ok (price : PriceRecord)
deriving DecidableEq, Repr

/-- HTTP status code of a global-price response. -/
def PriceResp.httpStatus : PriceResp → Nat
  | .invalidAmount => 400
  | .invalidCurrency => 400
  | .ok _ => 200

/-- `POST /api/admin/price` handler (lines 104-142). -/
def updatePriceHandler (fsOk : Bool) (now : String) (amount currency : JVal)
    (s : ServerState) : PriceResp × ServerState :=
  if !amount.isNumber || amount.numVal < 0 then (.invalidAmount, s)
  else if !jsTruthy currency || !currency.isString then (.invalidCurrency, s)
  else
    let p : PriceRecord :=
      { amount := amount.numVal, currency := currency.strVal, updatedAt := now }
    let s1 := saveData fsOk { s with currentPrice := some p }
    (.ok p, s1)

/-- Response of `POST /api/admin/cards/status`. -/
inductive StatusResp where
  | notFound
  | invalidStatus
  | ok (card : GiftCard)
deriving DecidableEq, Repr

/-- HTTP status code of a card-status response. -/
def StatusResp.httpStatus : StatusResp → Nat
  | .notFound => 404
  | .invalidStatus => 400
  | .ok _ => 200

/-- The status whitelist `['pending', 'accepted', 'declined']`. -/
def validStatuses : List String := ["pending", "accepted", "declined"]

/-- `['pending','accepted','declined'].includes(status)`: only a string can
be included. -/
def statusIncluded (v : JVal) : Bool :=
  match v with
  | .str st => validStatuses.contains st
  | _ => false

/-- In-place mutation `giftCards[code].f = ...`, as a map update. -/
def updateCard (m : CardMap) (code : String) (card : GiftCard) : CardMap :=
  m.map (fun kv => if kv.1 = code then (code, card) else kv)

/-- `POST /api/admin/cards/status` handler (lines 192-227).  The `!code`
falsy check makes an empty code a 404 regardless of the map. -/
def cardStatusHandler (fsOk : Bool) (now : String) (code : String)
    (status : JVal) (s : ServerState) : StatusResp × ServerState :=
  if code = "" then (.notFound, s)
  else
    match s.giftCards.lookup code with
    | none => (.notFound, s)
    | some c0 =>
      if !statusIncluded status then (.invalidStatus, s)
      else
        let card := { c0 with status := status.strVal, updatedAt := some now }
        let s1 := saveData fsOk
          { s with giftCards := updateCard s.giftCards code card }
        (.ok card, s1)

/-- Response of `POST /api/admin/cards/price`. -/
inductive CardPriceResp where
  | notFound
  | invalidAmount
  | ok (card : GiftCard)
deriving DecidableEq, Repr

/-- HTTP status code of a card-price response. -/
def CardPriceResp.httpStatus : CardPriceResp → Nat
  | .notFound => 404
  | .invalidAmount => 400
  | .ok _ => 200

/-- Line 249: `currentPrice ? currentPrice.currency : 'USD'`. -/
def globalCurrency (s : ServerState) : String :=
  match s.currentPrice with
  | some p => p.currency
  | none => "USD"

/-- `POST /api/admin/cards/price` handler (lines 230-271). -/
def cardPriceHandler (fsOk : Bool) (now : String) (code : String)
    (amount : JVal) (s : ServerState) : CardPriceResp × ServerState :=
  if code = "" then (.notFound, s)
  else
    match s.giftCards.lookup code with
    | none => (.notFound, s)
    | some c0 =>
      if !amount.isNumber || amount.numVal < 0 then (.invalidAmount, s)
      else
        let card := { c0 with
          price := some { amount := amount.numVal, currency := globalCurrency s },
          updatedAt := some now }
        let s1 := saveData fsOk
          { s with giftCards := updateCard s.giftCards code card }
        (.ok card, s1)

/-- The statistics payload of `POST /api/admin/stats`. -/
structure Stats where
  total : Nat
  accepted : Nat
  declined : Nat
  pending : Nat
deriving DecidableEq, Repr

/-- `POST /api/admin/stats` handler (lines 274-287): a pure read. -/
def statsHandler (s : ServerState) : Stats :=
  let cards := s.giftCards.map Prod.snd
  { total := cards.length,
    accepted := (cards.filter (fun c => c.status = "accepted")).length,
    declined := (cards.filter (fun c => c.status = "declined")).length,
    pending := (cards.filter (fun c => c.status = "pending")).length }

/-- One state-mutating API request (reads are omitted: they do not change
the state).  Each carries its filesystem outcome and request timestamp. -/
inductive Op where
  | validate (fsOk : Bool) (now : String) (code : JVal)
  | setGlobalPrice (fsOk : Bool) (now : String) (amount currency : JVal)
  | setStatus (fsOk : Bool) (now : String) (code : String) (status : JVal)
  | setCardPrice (fsOk : Bool) (now : String) (code : String) (amount : JVal)

/-- The state transition of one request. -/
def Op.apply : Op → ServerState → ServerState
  | .validate fsOk now code, s => (validateHandler fsOk now code s).2
  | .setGlobalPrice fsOk now amount currency, s =>
    (updatePriceHandler fsOk now amount currency s).2
  | .setStatus fsOk now code status, s =>
    (cardStatusHandler fsOk now code status s).2
  | .setCardPrice fsOk now code amount, s =>
    (cardPriceHandler fsOk now code amount s).2

/-- Run a sequence of requests. -/
def runOps (ops : List Op) (s : ServerState) : ServerState :=
  ops.foldl (fun t op => op.apply t) s

/-- A state is reachable when some request sequence produces it from a fresh
startup. -/
def Reachable (s : ServerState) : Prop :=
  ∃ ops : List Op, runOps ops initState = s

/-- The claim-level reading of "the submitted amount is a non-negative
number". -/
def isNonNegNumberVal (v : JVal) : Prop :=
  ∃ q : ℚ, v = .num q ∧ 0 ≤ q

/-- The claim-level reading of "currency is a non-empty string". -/
def isNonEmptyStringVal (v : JVal) : Prop :=
  ∃ c : String, v = .str c ∧ c ≠ ""

/-! ### Helper lemmas -/

theorem lookup_append_single (m : CardMap) (code : String) (card : GiftCard)
    (h : m.lookup code = none) :
    (m ++ [(code, card)]).lookup code = some card := by
  induction m with
  | nil => simp [List.lookup]
  | cons kv rest ih =>
    obtain ⟨k, b⟩ := kv
    by_cases hk : code = k
    · simp [List.lookup, hk] at h
    · have hk' : (code == k) = false := beq_eq_false_iff_ne.mpr hk
      simp only [List.lookup, hk', List.cons_append] at h ⊢
      exact ih h

theorem lookup_cons_self (k : String) (b : GiftCard) (rest : CardMap) :
    List.lookup k ((k, b) :: rest) = some b := by
  simp [List.lookup]

theorem lookup_cons_ne (k k0 : String) (b : GiftCard) (rest : CardMap)
    (h : k ≠ k0) : List.lookup k ((k0, b) :: rest) = List.lookup k rest := by
  simp [List.lookup, beq_eq_false_iff_ne.mpr h]

theorem updateCard_cons (k0 : String) (b : GiftCard) (rest : CardMap)
    (code : String) (card : GiftCard) :
    updateCard ((k0, b) :: rest) code card =
      (if k0 = code then (code, card) else (k0, b)) :: updateCard rest code card := by
  simp only [updateCard, List.map_cons]

theorem lookup_updateCard_self (m : CardMap) (code : String)
    (card c0 : GiftCard) (h : m.lookup code = some c0) :
    (updateCard m code card).lookup code = some card := by
  induction m with
  | nil => simp [List.lookup] at h
  | cons kv rest ih =>
    obtain ⟨k, b⟩ := kv
    rw [updateCard_cons]
    by_cases hk : k = code
    · subst hk
      rw [if_pos rfl, lookup_cons_self]
    · have hne : code ≠ k := fun he => hk he.symm
      rw [if_neg hk, lookup_cons_ne _ _ _ _ hne]
      rw [lookup_cons_ne _ _ _ _ hne] at h
      exact ih h

theorem lookup_updateCard_ne (m : CardMap) (code : String)
    (card : GiftCard) (k : String) (h : k ≠ code) :
    (updateCard m code card).lookup k = m.lookup k := by
  induction m with
  | nil => rfl
  | cons kv rest ih =>
    obtain ⟨k0, b⟩ := kv
    rw [updateCard_cons]
    by_cases hk0 : k0 = code
    · subst hk0
      rw [if_pos rfl, lookup_cons_ne _ _ _ _ h, lookup_cons_ne _ _ _ _ h]
      exact ih
    · rw [if_neg hk0]
      by_cases hkk : k = k0
      · subst hkk
        rw [lookup_cons_self, lookup_cons_self]
      · rw [lookup_cons_ne _ _ _ _ hkk, lookup_cons_ne _ _ _ _ hkk]
        exact ih

theorem isValidCodeInput_str (code : String)
    (h : matchesCodePattern code = true) :
    isValidCodeInput (.str code) = true := by
  have hlen : 1 ≤ code.length := by
    simp only [matchesCodePattern, Bool.and_eq_true, decide_eq_true_eq] at h
    exact h.1.1
  have hne : code ≠ "" := by
    intro he
    rw [he] at hlen
    simp at hlen
  simp [isValidCodeInput, jsTruthy, JVal.isString, JVal.strVal, h, hne]
  simp only [matchesCodePattern, Bool.and_eq_true, decide_eq_true_eq] at h
  exact h.1.2

theorem cardStatusHandler_of_lookup_none (fsOk : Bool) (now code : String)
    (status : JVal) (s : ServerState) (h : s.giftCards.lookup code = none) :
    cardStatusHandler fsOk now code status s = (.notFound, s) := by
  by_cases hc : code = "" <;> simp [cardStatusHandler, hc, h]

theorem cardPriceHandler_of_lookup_none (fsOk : Bool) (now code : String)
    (amount : JVal) (s : ServerState) (h : s.giftCards.lookup code = none) :
    cardPriceHandler fsOk now code amount s = (.notFound, s) := by
  by_cases hc : code = "" <;> simp [cardPriceHandler, hc, h]

theorem updatePriceHandler_giftCards (fsOk : Bool) (now : String)
    (amount currency : JVal) (s : ServerState) :
    (updatePriceHandler fsOk now amount currency s).2.giftCards = s.giftCards := by
  unfold updatePriceHandler saveData
  split
  · rfl
  · split
    · rfl
    · cases fsOk <;> simp

theorem saveData_giftCards (fsOk : Bool) (s : ServerState) :
    (saveData fsOk s).giftCards = s.giftCards := by
  cases fsOk <;> rfl

theorem saveData_currentPrice (fsOk : Bool) (s : ServerState) :
    (saveData fsOk s).currentPrice = s.currentPrice := by
  cases fsOk <;> rfl

theorem mem_of_lookup_eq_some (m : CardMap) (code : String) (c0 : GiftCard)
    (h : m.lookup code = some c0) : (code, c0) ∈ m := by
  induction m with
  | nil => simp [List.lookup] at h
  | cons kv rest ih =>
    obtain ⟨k, b⟩ := kv
    by_cases hk : code = k
    · subst hk
      rw [lookup_cons_self] at h
      cases h
      exact List.mem_cons_self _ _
    · rw [lookup_cons_ne _ _ _ _ hk] at h
      exact List.mem_cons_of_mem _ (ih h)

theorem mem_updateCard (m : CardMap) (code : String) (card : GiftCard)
    (kv : String × GiftCard) (h : kv ∈ updateCard m code card) :
    kv = (code, card) ∨ kv ∈ m := by
  simp only [updateCard, List.mem_map] at h
  obtain ⟨kv0, hkv0, heq⟩ := h
  by_cases hc : kv0.1 = code
  · rw [if_pos hc] at heq
    exact Or.inl heq.symm
  · rw [if_neg hc] at heq
    exact Or.inr (heq ▸ hkv0)

theorem decodeCard_encodeCard (c : GiftCard) :
    decodeCard (encodeCard c) = some c := by
  rcases c with ⟨code, status, createdAt, u, p⟩
  cases u <;> cases p <;> rfl

theorem decodeCards_encodeCards (m : CardMap) :
    decodeCards (encodeCards m) = some m := by
  induction m with
  | nil => rfl
  | cons kv rest ih =>
    obtain ⟨k, c⟩ := kv
    simp only [encodeCards, List.map_cons, decodeCards, List.mapM_cons] at ih ⊢
    rw [decodeCard_encodeCard]
    simp_all [Option.map, Option.bind]

theorem decodePrice_encodePrice (op : Option PriceRecord) :
    decodePrice (encodePrice op) = some op := by
  cases op with
  | none => rfl
  | some p => rfl

/-- Every stored status is one of the three enum values. -/
def statusOkMap (m : CardMap) : Prop :=
  ∀ kv ∈ m, kv.2.status ∈ validStatuses

theorem strVal_mem_of_statusIncluded (v : JVal)
    (h : statusIncluded v = true) : v.strVal ∈ validStatuses := by
  cases v with
  | str st =>
    have h' : st = "pending" ∨ st = "accepted" ∨ st = "declined" := by
      by_contra hcon
      push_neg at hcon
      obtain ⟨h1, h2, h3⟩ := hcon
      simp [statusIncluded, validStatuses, List.contains, List.elem,
            beq_eq_false_iff_ne.mpr h1, beq_eq_false_iff_ne.mpr h2,
            beq_eq_false_iff_ne.mpr h3] at h
    simp only [JVal.strVal, validStatuses, List.mem_cons, List.not_mem_nil, or_false]
    exact h'
  | null => simp [statusIncluded] at h
  | undefined => simp [statusIncluded] at h
  | bool b => simp [statusIncluded] at h
  | num q => simp [statusIncluded] at h

theorem statusOkMap_validate (fsOk : Bool) (now : String) (v : JVal)
    (s : ServerState) (h : statusOkMap s.giftCards) :
    statusOkMap (validateHandler fsOk now v s).2.giftCards := by
  unfold validateHandler
  split
  · exact h
  · cases hl : List.lookup v.strVal s.giftCards with
    | some card =>
      simp only [hl]
      exact h
    | none =>
      simp only [hl, saveData_giftCards]
      intro kv hkv
      rcases List.mem_append.mp hkv with hin | hnew
      · exact h kv hin
      · simp only [List.mem_singleton] at hnew
        subst hnew
        simp [validStatuses]

theorem statusOkMap_updatePrice (fsOk : Bool) (now : String)
    (amount currency : JVal) (s : ServerState) (h : statusOkMap s.giftCards) :
    statusOkMap (updatePriceHandler fsOk now amount currency s).2.giftCards := by
  rw [show (updatePriceHandler fsOk now amount currency s).2.giftCards = s.giftCards
        from updatePriceHandler_giftCards fsOk now amount currency s]
  exact h

theorem statusOkMap_cardStatus (fsOk : Bool) (now code : String)
    (status : JVal) (s : ServerState) (h : statusOkMap s.giftCards) :
    statusOkMap (cardStatusHandler fsOk now code status s).2.giftCards := by
  unfold cardStatusHandler
  split
  · exact h
  · split
    · exact h
    · split
      · exact h
      · next hinc =>
        have hincl : statusIncluded status = true := by
          revert hinc
          cases statusIncluded status <;> simp
        intro kv hkv
        rw [saveData_giftCards] at hkv
        rcases mem_updateCard _ _ _ _ hkv with rfl | hin
        · simpa using strVal_mem_of_statusIncluded status hincl
        · exact h kv hin

theorem statusOkMap_cardPrice (fsOk : Bool) (now code : String)
    (amount : JVal) (s : ServerState) (h : statusOkMap s.giftCards) :
    statusOkMap (cardPriceHandler fsOk now code amount s).2.giftCards := by
  unfold cardPriceHandler
  split
  · exact h
  · split
    · exact h
    · next c0 heq =>
      split
      · exact h
      · intro kv hkv
        rw [saveData_giftCards] at hkv
        rcases mem_updateCard _ _ _ _ hkv with rfl | hin
        · simpa using h (code, c0) (mem_of_lookup_eq_some _ _ _ heq)
        · exact h kv hin

theorem statusOkMap_apply (op : Op) (t : ServerState)
    (h : statusOkMap t.giftCards) : statusOkMap (op.apply t).giftCards := by
  cases op with
  | validate fsOk now code => exact statusOkMap_validate fsOk now code t h
  | setGlobalPrice fsOk now amount currency =>
    exact statusOkMap_updatePrice fsOk now amount currency t h
  | setStatus fsOk now code status =>
    exact statusOkMap_cardStatus fsOk now code status t h
  | setCardPrice fsOk now code amount =>
    exact statusOkMap_cardPrice fsOk now code amount t h

theorem statusOkMap_runOps (ops : List Op) (t : ServerState)
    (h : statusOkMap t.giftCards) : statusOkMap (runOps ops t).giftCards := by
  induction ops generalizing t with
  | nil => exact h
  | cons op rest ih => exact ih _ (statusOkMap_apply op t h)

theorem length_filter_partition (cards : List GiftCard)
    (h : ∀ c ∈ cards, c.status ∈ validStatuses) :
    cards.length =
      (cards.filter fun c => c.status = "accepted").length +
      (cards.filter fun c => c.status = "declined").length +
      (cards.filter fun c => c.status = "pending").length := by
  induction cards with
  | nil => rfl
  | cons c rest ih =>
    have hc := h c (List.mem_cons_self c rest)
    have hr : ∀ x ∈ rest, x.status ∈ validStatuses :=
      fun x hx => h x (List.mem_cons_of_mem c hx)
    simp only [validStatuses, List.mem_cons, List.not_mem_nil, or_false] at hc
    rcases hc with h1 | h1 | h1 <;>
      simp [List.filter_cons, h1, ih hr] <;> omega

/-! ### Claim theorems -/

/-- C2: every code input that is not a string, or is a string violating
`^[A-Z0-9]{1,25}$`, makes `validate` answer 400 `InvalidFormat` and leaves
the whole state (card registry included) unchanged. -/
theorem validate_rejects_invalid_code (fsOk : Bool) (now : String)
    (v : JVal) (s : ServerState)
    (h : (∀ c : String, v ≠ .str c) ∨
         ∃ c : String, v = .str c ∧ matchesCodePattern c = false) :
    (validateHandler fsOk now v s).1 = .invalidFormat ∧
    (validateHandler fsOk now v s).1.httpStatus = 400 ∧
    (validateHandler fsOk now v s).2 = s := by
  have hb : isValidCodeInput v = false := by
    rcases h with h | ⟨c, rfl, hc⟩
    · cases v with
      | str c => exact absurd rfl (h c)
      | null => rfl
      | undefined => rfl
      | bool b => simp [isValidCodeInput, JVal.isString, jsTruthy]
      | num q => simp [isValidCodeInput, JVal.isString, jsTruthy]
    · simp [isValidCodeInput, JVal.strVal, hc]
  simp [validateHandler, hb, ValidateResp.httpStatus]

/-- C2 witness: the lowercase code "abc" is rejected with 400 and the
initial state is untouched. -/
theorem validate_rejects_invalid_code_witness :
    (validateHandler true "t0" (.str "abc") initState).1 = .invalidFormat ∧
    (validateHandler true "t0" (.str "abc") initState).1.httpStatus = 400 ∧
    (validateHandler true "t0" (.str "abc") initState).2 = initState :=
  validate_rejects_invalid_code true "t0" (.str "abc") initState
    (Or.inr ⟨"abc", rfl, by decide⟩)

/-- C1: for a well-formed code absent from the registry, `validate` creates
exactly one record for that code with status "pending" and the request
timestamp, persists (both files mirror the new in-memory state), and
returns the record together with the current global price; a subsequent
`validate` with the same code returns that same record and state unchanged. -/
theorem validate_creates_then_idempotent (now now2 : String) (fsOk2 : Bool)
    (code : String) (s : ServerState)
    (hpat : matchesCodePattern code = true)
    (habs : s.giftCards.lookup code = none) :
    (validateHandler true now (.str code) s).1 =
      .ok { code := code, status := "pending", createdAt := now } s.currentPrice ∧
    (validateHandler true now (.str code) s).2.giftCards =
      s.giftCards ++ [(code, { code := code, status := "pending", createdAt := now })] ∧
    (validateHandler true now (.str code) s).2.currentPrice = s.currentPrice ∧
    (validateHandler true now (.str code) s).2.diskCards =
      encodeCards ((validateHandler true now (.str code) s).2.giftCards) ∧
    (validateHandler true now (.str code) s).2.diskPrice =
      encodePrice s.currentPrice ∧
    validateHandler fsOk2 now2 (.str code) (validateHandler true now (.str code) s).2 =
      (.ok { code := code, status := "pending", createdAt := now }
        (validateHandler true now (.str code) s).2.currentPrice,
       (validateHandler true now (.str code) s).2) := by
  have hvalid := isValidCodeInput_str code hpat
  have hrun : validateHandler true now (.str code) s =
      (.ok { code := code, status := "pending", createdAt := now } s.currentPrice,
       { giftCards :=
           s.giftCards ++ [(code, { code := code, status := "pending", createdAt := now })],
         currentPrice := s.currentPrice,
         diskCards := encodeCards
           (s.giftCards ++ [(code, { code := code, status := "pending", createdAt := now })]),
         diskPrice := encodePrice s.currentPrice }) := by
    simp [validateHandler, hvalid, JVal.strVal, habs, saveData]
  have hlook := lookup_append_single s.giftCards code
    { code := code, status := "pending", createdAt := now } habs
  refine ⟨by rw [hrun], by rw [hrun], by rw [hrun], by rw [hrun], by rw [hrun], ?_⟩
  rw [hrun]
  simp [validateHandler, hvalid, JVal.strVal, hlook]

/-- C1 witness: validating "ABC123" on the fresh initial state creates the
pending record, persists it, and a second call is idempotent. -/
theorem validate_creates_then_idempotent_witness :
    matchesCodePattern "ABC123" = true ∧
    initState.giftCards.lookup "ABC123" = none ∧
    ((validateHandler true "t0" (.str "ABC123") initState).1 =
      .ok { code := "ABC123", status := "pending", createdAt := "t0" }
        initState.currentPrice ∧
     (validateHandler true "t0" (.str "ABC123") initState).2.giftCards =
      initState.giftCards ++
        [("ABC123", { code := "ABC123", status := "pending", createdAt := "t0" })] ∧
     (validateHandler true "t0" (.str "ABC123") initState).2.currentPrice =
       initState.currentPrice ∧
     (validateHandler true "t0" (.str "ABC123") initState).2.diskCards =
       encodeCards ((validateHandler true "t0" (.str "ABC123") initState).2.giftCards) ∧
     (validateHandler true "t0" (.str "ABC123") initState).2.diskPrice =
       encodePrice initState.currentPrice ∧
     validateHandler false "t1" (.str "ABC123")
         (validateHandler true "t0" (.str "ABC123") initState).2 =
       (.ok { code := "ABC123", status := "pending", createdAt := "t0" }
          (validateHandler true "t0" (.str "ABC123") initState).2.currentPrice,
        (validateHandler true "t0" (.str "ABC123") initState).2)) :=
  ⟨by decide, rfl,
   validate_creates_then_idempotent "t0" "t1" false "ABC123" initState (by decide) rfl⟩

/-- C4: the global price update rejects with 400 `InvalidAmount` unless the
amount is a non-negative number, rejects with 400 `InvalidCurrency` unless
the currency is a non-empty string (each rejection leaving the whole state,
stored price included, unchanged), and otherwise replaces the singleton
price wholesale with the new amount, currency and fresh timestamp, leaving
the cards alone and persisting when the filesystem cooperates. -/
theorem updatePrice_spec (fsOk : Bool) (now : String) (amount currency : JVal)
    (s : ServerState) :
    (¬ isNonNegNumberVal amount →
      updatePriceHandler fsOk now amount currency s = (.invalidAmount, s) ∧
      (updatePriceHandler fsOk now amount currency s).1.httpStatus = 400) ∧
    (isNonNegNumberVal amount → ¬ isNonEmptyStringVal currency →
      updatePriceHandler fsOk now amount currency s = (.invalidCurrency, s) ∧
      (updatePriceHandler fsOk now amount currency s).1.httpStatus = 400) ∧
    (∀ (q : ℚ) (c : String), amount = .num q → 0 ≤ q → currency = .str c → c ≠ "" →
      (updatePriceHandler fsOk now amount currency s).1 =
        .ok { amount := q, currency := c, updatedAt := now } ∧
      (updatePriceHandler fsOk now amount currency s).2.currentPrice =
        some { amount := q, currency := c, updatedAt := now } ∧
      (updatePriceHandler fsOk now amount currency s).2.giftCards = s.giftCards ∧
      (fsOk = true →
        (updatePriceHandler fsOk now amount currency s).2.diskPrice =
          encodePrice (some { amount := q, currency := c, updatedAt := now }) ∧
        (updatePriceHandler fsOk now amount currency s).2.diskCards =
          encodeCards s.giftCards)) := by
  refine ⟨fun hbad => ?_, fun hgood hbadc => ?_, fun q c hq hq0 hc hcne => ?_⟩
  · have hcond : (!amount.isNumber || amount.numVal < 0) = true := by
      cases amount with
      | num q =>
        have : q < 0 := by
          by_contra hge
          exact hbad ⟨q, rfl, le_of_not_lt hge⟩
        simp [JVal.isNumber, JVal.numVal, this]
      | null => rfl
      | undefined => rfl
      | bool b => rfl
      | str c => rfl
    constructor
    · simp [updatePriceHandler, hcond]
    · simp [updatePriceHandler, hcond, PriceResp.httpStatus]
  · obtain ⟨q, rfl, hq0⟩ := hgood
    have hcond : (!(JVal.num q).isNumber || (JVal.num q).numVal < 0) = false := by
      simp [JVal.isNumber, JVal.numVal, not_lt.mpr hq0]
    have hcondc : (!jsTruthy currency || !currency.isString) = true := by
      cases currency with
      | str c =>
        have : c = "" := by
          by_contra hne
          exact hbadc ⟨c, rfl, hne⟩
        simp [this, jsTruthy]
      | null => rfl
      | undefined => rfl
      | bool b =>
        cases b <;> simp [jsTruthy, JVal.isString]
      | num q2 => simp [jsTruthy, JVal.isString]
    constructor
    · simp [updatePriceHandler, hcond, hcondc]
    · simp [updatePriceHandler, hcond, hcondc, PriceResp.httpStatus]
  · subst hq hc
    have hcond : (!(JVal.num q).isNumber || (JVal.num q).numVal < 0) = false := by
      simp [JVal.isNumber, JVal.numVal, not_lt.mpr hq0]
    have hcondc : (!jsTruthy (JVal.str c) || !(JVal.str c).isString) = false := by
      simp [jsTruthy, JVal.isString, hcne]
    have hnlt : ¬ q < 0 := not_lt.mpr hq0
    cases fsOk <;>
      simp [updatePriceHandler, hcond, hcondc, JVal.isNumber, JVal.numVal,
            JVal.strVal, hnlt, saveData]

/-- C4 witness: rejecting a negative amount, rejecting an empty currency,
and accepting amount 9.99 with currency "USD" on the initial state. -/
theorem updatePrice_spec_witness :
    (updatePriceHandler true "t0" (.num (-1)) (.str "USD") initState
       = (.invalidAmount, initState)) ∧
    (updatePriceHandler true "t0" (.num 2) (.str "") initState
       = (.invalidCurrency, initState)) ∧
    (updatePriceHandler true "t0" (.num (99/10)) (.str "USD") initState).2.currentPrice
       = some { amount := 99/10, currency := "USD", updatedAt := "t0" } := by
  refine ⟨?_, ?_, ?_⟩
  · exact ((updatePrice_spec true "t0" (.num (-1)) (.str "USD") initState).1
      (by rintro ⟨q, hq, hq0⟩; cases hq; norm_num at hq0)).1
  · exact (((updatePrice_spec true "t0" (.num 2) (.str "") initState).2.1
      ⟨2, rfl, by norm_num⟩)
      (by rintro ⟨c, hc, hne⟩; cases hc; exact hne rfl)).1
  · exact (((updatePrice_spec true "t0" (.num (99/10)) (.str "USD") initState).2.2
      (99/10) "USD" rfl (by norm_num) rfl (by decide)).2).1

/-- C6: for a code absent from the registry, both `setStatus` and `setPrice`
answer 404 `NotFound` and mutate nothing: the returned state (card map,
global price and disk files) is the input state. -/
theorem unknown_code_notFound (fsOk : Bool) (now code : String)
    (status amount : JVal) (s : ServerState)
    (h : s.giftCards.lookup code = none) :
    cardStatusHandler fsOk now code status s = (.notFound, s) ∧
    (cardStatusHandler fsOk now code status s).1.httpStatus = 404 ∧
    cardPriceHandler fsOk now code amount s = (.notFound, s) ∧
    (cardPriceHandler fsOk now code amount s).1.httpStatus = 404 := by
  have h1 := cardStatusHandler_of_lookup_none fsOk now code status s h
  have h2 := cardPriceHandler_of_lookup_none fsOk now code amount s h
  refine ⟨h1, ?_, h2, ?_⟩
  · rw [h1]
    rfl
  · rw [h2]
    rfl


/-- C6 witness: `setStatus`/`setPrice` on code "ZZZ" in the empty initial
state answer 404 and leave the state alone. -/
theorem unknown_code_notFound_witness :
    cardStatusHandler true "t0" "ZZZ" (.str "accepted") initState
      = (.notFound, initState) ∧
    (cardStatusHandler true "t0" "ZZZ" (.str "accepted") initState).1.httpStatus = 404 ∧
    cardPriceHandler true "t0" "ZZZ" (.num 5) initState = (.notFound, initState) ∧
    (cardPriceHandler true "t0" "ZZZ" (.num 5) initState).1.httpStatus = 404 :=
  unknown_code_notFound true "t0" "ZZZ" (.str "accepted") (.num 5) initState rfl

/-- C5: for a registered code, `setStatus` with a status outside
{pending, accepted, declined} answers 400 `InvalidStatus` and changes
nothing; with a status in the set it changes exactly that record's status
and updatedAt (all other records and the global price untouched) and
persists when the filesystem cooperates. -/
theorem setStatus_spec (fsOk : Bool) (now code : String) (status : JVal)
    (s : ServerState) (c0 : GiftCard)
    (hc : s.giftCards.lookup code = some c0) (hne : code ≠ "") :
    (statusIncluded status = false →
      cardStatusHandler fsOk now code status s = (.invalidStatus, s) ∧
      (cardStatusHandler fsOk now code status s).1.httpStatus = 400) ∧
    (∀ v : String, status = .str v → v ∈ validStatuses →
      (cardStatusHandler fsOk now code status s).1 =
        .ok { c0 with status := v, updatedAt := some now } ∧
      (cardStatusHandler fsOk now code status s).2.giftCards.lookup code =
        some { c0 with status := v, updatedAt := some now } ∧
      (∀ k : String, k ≠ code →
        (cardStatusHandler fsOk now code status s).2.giftCards.lookup k =
          s.giftCards.lookup k) ∧
      (cardStatusHandler fsOk now code status s).2.currentPrice = s.currentPrice ∧
      (fsOk = true →
        (cardStatusHandler fsOk now code status s).2.diskCards =
          encodeCards (cardStatusHandler fsOk now code status s).2.giftCards ∧
        (cardStatusHandler fsOk now code status s).2.diskPrice =
          encodePrice s.currentPrice)) := by
  constructor
  · intro hbad
    constructor
    · simp [cardStatusHandler, hne, hc, hbad]
    · simp [cardStatusHandler, hne, hc, hbad, StatusResp.httpStatus]
  · rintro v rfl hv
    have hincl : statusIncluded (.str v) = true := by
      simp only [validStatuses, List.mem_cons, List.not_mem_nil, or_false] at hv
      rcases hv with rfl | rfl | rfl <;> rfl
    have hrun : cardStatusHandler fsOk now code (.str v) s =
        (.ok { c0 with status := v, updatedAt := some now },
         saveData fsOk
           { s with giftCards := updateCard s.giftCards code ({ c0 with status := v, updatedAt := some now }) }) := by
      simp [cardStatusHandler, hne, hc, hincl, JVal.strVal]
    have hlookSelf := lookup_updateCard_self s.giftCards code
      { c0 with status := v, updatedAt := some now } c0 hc
    cases fsOk <;>
      simp_all [saveData, hrun, lookup_updateCard_ne]

/-- C5 witness: on a state holding the pending card "ABC123", a bogus status
"weird" is rejected with 400 leaving the state alone, and "accepted" updates
that record. -/
theorem setStatus_spec_witness :
    (let s1 := (validateHandler true "t0" (.str "ABC123") initState).2
     cardStatusHandler true "t2" "ABC123" (.str "weird") s1 = (.invalidStatus, s1)) ∧
    (let s1 := (validateHandler true "t0" (.str "ABC123") initState).2
     (cardStatusHandler true "t2" "ABC123" (.str "accepted") s1).1 =
       .ok { code := "ABC123", status := "accepted", createdAt := "t0",
             updatedAt := some "t2" }) := by
  constructor
  · exact ((setStatus_spec true "t2" "ABC123" (.str "weird")
      (validateHandler true "t0" (.str "ABC123") initState).2
      { code := "ABC123", status := "pending", createdAt := "t0" }
      rfl (by decide)).1 (by decide)).1
  · exact ((setStatus_spec true "t2" "ABC123" (.str "accepted")
      (validateHandler true "t0" (.str "ABC123") initState).2
      { code := "ABC123", status := "pending", createdAt := "t0" }
      rfl (by decide)).2 "accepted" rfl (by decide)).1

/-- C7: for a registered code and a non-negative numeric amount, `setPrice`
stores `{amount, currency}` on that card, with the currency taken from the
current global price when one is set and "USD" otherwise, stamps updatedAt,
leaves other records and the global price untouched, persists when the
filesystem cooperates — and a later global price update never rewrites any
card, so the stored currency is fixed at that moment. -/
theorem setCardPrice_spec (fsOk : Bool) (now code : String) (q : ℚ)
    (s : ServerState) (c0 : GiftCard)
    (hc : s.giftCards.lookup code = some c0) (hne : code ≠ "") (hq0 : 0 ≤ q) :
    (cardPriceHandler fsOk now code (.num q) s).1 =
      .ok { c0 with price := some { amount := q, currency := globalCurrency s },
                    updatedAt := some now } ∧
    (cardPriceHandler fsOk now code (.num q) s).2.giftCards.lookup code =
      some { c0 with price := some { amount := q, currency := globalCurrency s },
                     updatedAt := some now } ∧
    (s.currentPrice = none → globalCurrency s = "USD") ∧
    (∀ p : PriceRecord, s.currentPrice = some p → globalCurrency s = p.currency) ∧
    (∀ k : String, k ≠ code →
      (cardPriceHandler fsOk now code (.num q) s).2.giftCards.lookup k =
        s.giftCards.lookup k) ∧
    (cardPriceHandler fsOk now code (.num q) s).2.currentPrice = s.currentPrice ∧
    (fsOk = true →
      (cardPriceHandler fsOk now code (.num q) s).2.diskCards =
        encodeCards (cardPriceHandler fsOk now code (.num q) s).2.giftCards ∧
      (cardPriceHandler fsOk now code (.num q) s).2.diskPrice =
        encodePrice s.currentPrice) ∧
    (∀ (fsOk2 : Bool) (now2 : String) (a c : JVal),
      (updatePriceHandler fsOk2 now2 a c
          (cardPriceHandler fsOk now code (.num q) s).2).2.giftCards =
        (cardPriceHandler fsOk now code (.num q) s).2.giftCards) := by
  have hnlt : ¬ q < 0 := not_lt.mpr hq0
  have hrun : cardPriceHandler fsOk now code (.num q) s =
      (.ok { c0 with price := some { amount := q, currency := globalCurrency s },
                     updatedAt := some now },
       saveData fsOk
         { s with giftCards := updateCard s.giftCards code ({ c0 with price := some { amount := q, currency := globalCurrency s }, updatedAt := some now }) }) := by
    simp [cardPriceHandler, hne, hc, JVal.isNumber, JVal.numVal, hnlt, globalCurrency]
  have hlookSelf := lookup_updateCard_self s.giftCards code
    { c0 with price := some { amount := q, currency := globalCurrency s },
              updatedAt := some now } c0 hc
  refine ⟨?_, ?_, ?_, ?_, ?_, ?_, ?_, ?_⟩
  · rw [hrun]
  · rw [hrun]
    cases fsOk <;> simpa [saveData] using hlookSelf
  · intro hnone
    simp [globalCurrency, hnone]
  · intro p hp
    simp [globalCurrency, hp]
  · intro k hk
    rw [hrun]
    cases fsOk <;> simp [saveData, lookup_updateCard_ne _ _ _ _ hk]
  · rw [hrun]
    cases fsOk <;> simp [saveData]
  · intro hfs
    subst hfs
    rw [hrun]
    simp [saveData]
  · intro fsOk2 now2 a c
    exact updatePriceHandler_giftCards fsOk2 now2 a c _

/-- C7 witness: with global price currency "EUR" set, pricing card "ABC123"
at 5 stores currency "EUR" on the card. -/
theorem setCardPrice_spec_witness :
    (let s1 := (validateHandler true "t0" (.str "ABC123") initState).2
     let s2 := (updatePriceHandler true "t1" (.num 20) (.str "EUR") s1).2
     (cardPriceHandler true "t2" "ABC123" (.num 5) s2).1 =
       .ok { code := "ABC123", status := "pending", createdAt := "t0",
             updatedAt := some "t2",
             price := some { amount := 5, currency := "EUR" } }) := by
  exact (setCardPrice_spec true "t2" "ABC123" 5
    (updatePriceHandler true "t1" (.num 20) (.str "EUR")
      (validateHandler true "t0" (.str "ABC123") initState).2).2
    { code := "ABC123", status := "pending", createdAt := "t0" }
    rfl (by decide) (by norm_num)).1

/-- C8 counterexample: the real `saveData` catches filesystem errors itself
(server.js lines 68-75), so a price update whose flush fails still answers
200 success — not the 500 the claim requires — while the disk keeps its old
contents. -/
theorem flush_failure_not_500 :
    (updatePriceHandler false "t0" (.num 10) (.str "USD") initState).1 =
      .ok { amount := 10, currency := "USD", updatedAt := "t0" } ∧
    (updatePriceHandler false "t0" (.num 10) (.str "USD") initState).1.httpStatus = 200 ∧
    ¬ (updatePriceHandler false "t0" (.num 10) (.str "USD") initState).1.httpStatus = 500 ∧
    (updatePriceHandler false "t0" (.num 10) (.str "USD") initState).2.diskPrice =
      encodePrice none := by
  refine ⟨by decide, by decide, by decide, rfl⟩

/-- C8 amended: a filesystem failure during the post-mutation flush is
caught and logged inside `saveData`, so the mutating request still answers
200 success with the in-memory mutation applied while both disk files keep
their previous contents; no exception reaches the handler's catch-all. -/
theorem flush_failure_swallowed (now : String) (q : ℚ) (c : String)
    (s : ServerState) (hq0 : 0 ≤ q) (hcne : c ≠ "") :
    (updatePriceHandler false now (.num q) (.str c) s).1 =
      .ok { amount := q, currency := c, updatedAt := now } ∧
    (updatePriceHandler false now (.num q) (.str c) s).1.httpStatus = 200 ∧
    (updatePriceHandler false now (.num q) (.str c) s).2.currentPrice =
      some { amount := q, currency := c, updatedAt := now } ∧
    (updatePriceHandler false now (.num q) (.str c) s).2.diskCards = s.diskCards ∧
    (updatePriceHandler false now (.num q) (.str c) s).2.diskPrice = s.diskPrice := by
  have hnlt : ¬ q < 0 := not_lt.mpr hq0
  simp [updatePriceHandler, JVal.isNumber, JVal.numVal, JVal.strVal,
        jsTruthy, JVal.isString, hcne, hnlt, saveData, PriceResp.httpStatus]

/-- C8 amended witness: a concrete failed flush of a valid price update on
the initial state. -/
theorem flush_failure_swallowed_witness :
    (updatePriceHandler false "t0" (.num 7) (.str "EUR") initState).1 =
      .ok { amount := 7, currency := "EUR", updatedAt := "t0" } ∧
    (updatePriceHandler false "t0" (.num 7) (.str "EUR") initState).1.httpStatus = 200 ∧
    (updatePriceHandler false "t0" (.num 7) (.str "EUR") initState).2.currentPrice =
      some { amount := 7, currency := "EUR", updatedAt := "t0" } ∧
    (updatePriceHandler false "t0" (.num 7) (.str "EUR") initState).2.diskCards =
      initState.diskCards ∧
    (updatePriceHandler false "t0" (.num 7) (.str "EUR") initState).2.diskPrice =
      initState.diskPrice :=
  flush_failure_swallowed "t0" 7 "EUR" initState (by norm_num) (by decide)

/-- C3: in every reachable registry state the stats counts satisfy
`total = accepted + declined + pending`: every record's status is one of
the three enum values and each record is counted by exactly one summand. -/
theorem stats_total_partition (s : ServerState) (h : Reachable s) :
    (statsHandler s).total =
      (statsHandler s).accepted + (statsHandler s).declined +
      (statsHandler s).pending := by
  obtain ⟨ops, rfl⟩ := h
  have hok : statusOkMap (runOps ops initState).giftCards :=
    statusOkMap_runOps ops initState
      (by intro kv hkv; simp [initState] at hkv)
  have hall : ∀ c ∈ (runOps ops initState).giftCards.map Prod.snd,
      c.status ∈ validStatuses := by
    intro c hc
    obtain ⟨kv, hkv, rfl⟩ := List.mem_map.mp hc
    exact hok kv hkv
  simpa [statsHandler] using length_filter_partition _ hall

/-- C3 witness: the state reached by validating "ABC123" then accepting it
has stats 1 = 1 + 0 + 0. -/
theorem stats_total_partition_witness :
    Reachable (runOps [.validate true "t0" (.str "ABC123"),
                       .setStatus true "t1" "ABC123" (.str "accepted")] initState) ∧
    (statsHandler (runOps [.validate true "t0" (.str "ABC123"),
                           .setStatus true "t1" "ABC123" (.str "accepted")] initState)).total =
      (statsHandler (runOps [.validate true "t0" (.str "ABC123"),
                             .setStatus true "t1" "ABC123" (.str "accepted")] initState)).accepted +
      (statsHandler (runOps [.validate true "t0" (.str "ABC123"),
                             .setStatus true "t1" "ABC123" (.str "accepted")] initState)).declined +
      (statsHandler (runOps [.validate true "t0" (.str "ABC123"),
                             .setStatus true "t1" "ABC123" (.str "accepted")] initState)).pending :=
  ⟨⟨[.validate true "t0" (.str "ABC123"),
     .setStatus true "t1" "ABC123" (.str "accepted")], rfl⟩,
   stats_total_partition _
     ⟨[.validate true "t0" (.str "ABC123"),
       .setStatus true "t1" "ABC123" (.str "accepted")], rfl⟩⟩

/-- C9: flushing any in-memory state to disk and reading the files back as
at startup yields exactly the same card map and price record. -/
theorem persistence_roundTrip (s : ServerState) :
    loadCards (saveData true s).diskCards = s.giftCards ∧
    loadPrice (saveData true s).diskPrice = s.currentPrice := by
  constructor
  · show loadCards (encodeCards s.giftCards) = s.giftCards
    simp [loadCards, decodeCards_encodeCards]
  · show loadPrice (encodePrice s.currentPrice) = s.currentPrice
    simp [loadPrice, decodePrice_encodePrice]

/-- C10: in `setStatus` and `setPrice` the existence check runs before input
validation: an unknown code answers 404 whatever the submitted status or
amount, and a 400 `InvalidStatus` / `InvalidAmount` response implies the
code is registered. -/
theorem existence_check_precedes_validation (fsOk : Bool) (now code : String)
    (status amount : JVal) :
    (∀ s : ServerState, s.giftCards.lookup code = none →
      (cardStatusHandler fsOk now code status s).1.httpStatus = 404 ∧
      (cardPriceHandler fsOk now code amount s).1.httpStatus = 404) ∧
    (∀ s : ServerState,
      (cardStatusHandler fsOk now code status s).1 = .invalidStatus →
      (s.giftCards.lookup code).isSome = true) ∧
    (∀ s : ServerState,
      (cardPriceHandler fsOk now code amount s).1 = .invalidAmount →
      (s.giftCards.lookup code).isSome = true) := by
  refine ⟨fun s hs => ?_, fun s hr => ?_, fun s hr => ?_⟩
  · rw [cardStatusHandler_of_lookup_none fsOk now code status s hs,
        cardPriceHandler_of_lookup_none fsOk now code amount s hs]
    exact ⟨rfl, rfl⟩
  · cases hs : s.giftCards.lookup code with
    | some c0 => rfl
    | none =>
      rw [cardStatusHandler_of_lookup_none fsOk now code status s hs] at hr
      exact absurd hr (by simp)
  · cases hs : s.giftCards.lookup code with
    | some c0 => rfl
    | none =>
      rw [cardPriceHandler_of_lookup_none fsOk now code amount s hs] at hr
      exact absurd hr (by simp)

/-- C10 witness: with an unknown code and an invalid status/amount the
responses are still 404, exercised on the initial state. -/
theorem existence_check_precedes_validation_witness :
    (cardStatusHandler true "t0" "ZZZ" (.str "weird") initState).1.httpStatus = 404 ∧
    (cardPriceHandler true "t0" "ZZZ" (.num (-3)) initState).1.httpStatus = 404 :=
  (existence_check_precedes_validation true "t0" "ZZZ"
    (.str "weird") (.num (-3))).1 initState rfl

end GiftCardServer
